import Mathlib

/-!
# Verification of `cassandra/io/asyncioreactor.py`

A shallow embedding of the asyncio reactor adapter: the chunking `push` /
`_push_chunk` path, the `handle_write` and `handle_read` loops (driven by an
explicit trace of socket results), the `close` transition on connection state,
the class-level `initialize_reactor` transition, and the `AsyncioTimer` API
(`end`, `finish`, `cancel`, `__lt__`, `create_timer`).

Byte strings are modelled as `List Nat`; Python exceptions as an explicit
`PyExn` value returned through `Except`.
-/

namespace AsyncioReactor

/-- Python exceptions that the modelled code can raise. -/
inductive PyExn where
  | notImplementedError (msg : String)
  | typeError (msg : String)
  | attributeError (msg : String)
  deriving DecidableEq, Repr

/-! ## Outbound queue: `_push_chunk` and `push`

`_push_chunk` submits `self._write_queue.put(chunk)` to the loop; the
`asyncio.Queue` is FIFO, so enqueueing appends the chunk at the back.
`push` reads `buff_size = self.out_buffer_size` (a positive class constant of
the external base `Connection`), and splits `data` with
`for i in range(0, len(data), buff_size): self._push_chunk(data[i:i + buff_size])`
when `len(data) > buff_size`, else enqueues `data` whole. -/

/-- `AsyncioConnection._push_chunk`: enqueue one chunk at the back of the
write queue (FIFO `asyncio.Queue.put`). -/
def _push_chunk (q : List (List Nat)) (chunk : List Nat) : List (List Nat) :=
  q ++ [chunk]

/-- `AsyncioConnection.push`: split `data` into slices `data[i:i + buff_size]`
for `i in range(0, len(data), buff_size)` when `len(data) > buff_size`
(the range has `⌈len(data)/buff_size⌉` elements), otherwise enqueue `data`
as a single chunk. Returns the queue after the enqueues. -/
def push (buff_size : Nat) (q : List (List Nat)) (data : List Nat) : List (List Nat) :=
  if data.length > buff_size then
    (List.range' 0 ((data.length + buff_size - 1) / buff_size) buff_size).foldl
      (fun acc i => _push_chunk acc ((data.drop i).take buff_size)) q
  else
    _push_chunk q data

/-! ## Write loop -/

/-- Observable actions of one `handle_write` run. -/
inductive WriteEvent where
  | sent (chunk : List Nat)
  | defunctW (err : Nat)
  deriving DecidableEq, Repr

/-- `AsyncioConnection.handle_write`: repeatedly `get` the next chunk from the
write queue; if it is truthy (non-empty) send it with `sock_sendall`; a
`socket.error` from the send calls `self.defunct(err)` and returns from the
loop (the exception is swallowed, not re-raised). `send c = some e` models
`sock_sendall` raising `socket.error e` for chunk `c`; `none` models success.
An exhausted queue models the task suspending on `get`, ending the trace. -/
def handle_write (send : List Nat → Option Nat) : List (List Nat) → List WriteEvent
  | [] => []
  | c :: rest =>
    if c ≠ [] then
      match send c with
      | some e => [.defunctW e]
      | none => .sent c :: handle_write send rest
    else
      handle_write send rest

/-- The bytes that a run of the write loop delivered to the socket, in order. -/
def sentBytes (evs : List WriteEvent) : List Nat :=
  (evs.filterMap (fun ev => match ev with | .sent c => some c | _ => none)).flatten

/-- Number of `defunct` invocations in a write-loop run. -/
def countDefunctW (evs : List WriteEvent) : Nat :=
  evs.countP (fun ev => match ev with | .defunctW _ => true | _ => false)

/-! ## Read loop

`handle_read` is driven by a trace of outcomes of successive
`sock_recv(self._socket, self.in_buffer_size)` attempts: either a byte buffer
(possibly empty: peer closed), an `ssl.SSLWantWriteError`/`ssl.SSLWantReadError`,
or a `socket.error`. The `_iobuf` sink (owned by the external base connection,
only appended to here) is threaded through; `self._iobuf.tell()` is its length
(the write position right after `self._iobuf.write(buf)`). An exhausted trace
models the task suspending on `sock_recv`. -/

/-- Outcome of one `sock_recv` attempt. -/
inductive RecvResult where
  | data (buf : List Nat)
  | wantWrite
  | wantRead
  | sockErr (err : Nat)
  deriving DecidableEq, Repr

/-- Observable actions of one `handle_read` run: `process_io_buffer()` calls,
bare `yield`s, `defunct(err)`, and `close()`. -/
inductive ReadEvent where
  | processed
  | yielded
  | defunctR (err : Nat)
  | closed
  deriving DecidableEq, Repr

/-- `AsyncioConnection.handle_read`: loop over recv outcomes. A buffer is
written to `_iobuf`; then `if buf and self._iobuf.tell(): process_io_buffer()`
`else: close(); return`. `SSLWantWriteError`/`SSLWantReadError` hit
`yield; continue`; a `socket.error` hits `defunct(err); return`. Returns the
events of the run and the final `_iobuf` contents. -/
def handle_read (iobuf : List Nat) : List RecvResult → List ReadEvent × List Nat
  | [] => ([], iobuf)
  | .data buf :: rest =>
    let iobuf2 := iobuf ++ buf
    if buf ≠ [] ∧ iobuf2.length ≠ 0 then
      let r := handle_read iobuf2 rest
      (.processed :: r.1, r.2)
    else
      ([.closed], iobuf2)
  | .wantWrite :: rest =>
    let r := handle_read iobuf rest
    (.yielded :: r.1, r.2)
  | .wantRead :: rest =>
    let r := handle_read iobuf rest
    (.yielded :: r.1, r.2)
  | .sockErr e :: _ => ([.defunctR e], iobuf)

/-! ## Connection close -/

/-- The per-connection state that `close` touches: the `is_closed` flag
(guarded by `self.lock`, under which the check-and-set runs), the number of
`cancel()` calls performed on each task handle, and the `connected_event`
flag. -/
structure ConnState where
  is_closed : Bool
  write_cancels : Nat
  read_cancels : Nat
  connected_event : Bool
  deriving DecidableEq, Repr

/-- `AsyncioConnection.close`: under `self.lock`, return at once if
`self.is_closed`, else set it; then cancel `_write_watcher` and
`_read_watcher` and set `connected_event`. The lock serializes concurrent
calls, so a pair of calls (in either interleaving) is the sequential
composition modelled here. -/
def close (s : ConnState) : ConnState :=
  if s.is_closed then s
  else
    { is_closed := true
      write_cancels := s.write_cancels + 1
      read_cancels := s.read_cancels + 1
      connected_event := true }

/-! ## Reactor initialization -/

/-- The class-level state of `AsyncioConnection` read and written by
`initialize_reactor`: the recorded creator pid (`_pid`, set at class-definition
time), the loop handle `_loop` and the thread handle `_loop_thread` (both
`None` initially). Loop and thread handles are identifiers (`Nat`). -/
structure ReactorState where
  _pid : Nat
  _loop : Option Nat
  _loop_thread : Option Nat
  deriving DecidableEq, Repr

/-- `AsyncioConnection.initialize_reactor`, run under `cls._lock` with
`os.getpid()` returning `os_pid`: if `cls._pid != os.getpid()`, set
`cls._loop = None`; if `cls._loop is None`, set it to the loop
`asyncio.get_event_loop()` yields (`fresh_loop`); if `not cls._loop_thread`
(a `Thread` object is always truthy, so this tests `None`), create and start
a daemon thread `fresh_thread`. Note the code never assigns `cls._pid`. -/
def initialize_reactor (os_pid fresh_loop fresh_thread : Nat) (s : ReactorState) :
    ReactorState :=
  let s1 := if s._pid ≠ os_pid then { s with _loop := none } else s
  let s2 := if s1._loop = none then { s1 with _loop := some fresh_loop } else s1
  if s2._loop_thread = none then { s2 with _loop_thread := some fresh_thread } else s2

/-! ## Timers -/

/-- The `concurrent.futures.Future` returned by
`asyncio.run_coroutine_threadsafe`, as far as the timer uses it: `cancel()`
sets its cancelled flag. -/
structure TimerHandle where
  cancelled : Bool
  deriving DecidableEq, Repr

/-- Model of `asyncio.run_coroutine_threadsafe(coro, loop=loop)`: with a live
loop it schedules the coroutine and returns a `Future` handle; with
`loop=None` the call `loop.call_soon_threadsafe(...)` inside it is an
attribute access on `None` and raises `AttributeError`. -/
def run_coroutine_threadsafe (loop : Option Nat) (fut : TimerHandle) :
    Except PyExn TimerHandle :=
  match loop with
  | none => .error (.attributeError "NoneType object has no attribute call_soon_threadsafe")
  | some _ => .ok fut

/-- `AsyncioTimer`: wraps the `Future` handle stored as `self._handle`. -/
structure AsyncioTimer where
  _handle : TimerHandle
  deriving DecidableEq, Repr

/-- `AsyncioTimer.__init__`: builds the delayed coroutine (creating a
generator-based coroutine runs none of its body) and submits it with
`asyncio.run_coroutine_threadsafe(delayed, loop=loop)`, storing the result in
`self._handle`; the timeout and callback do not affect which branch is taken. -/
def AsyncioTimer.init (loop : Option Nat) (fut : TimerHandle) :
    Except PyExn AsyncioTimer :=
  match run_coroutine_threadsafe loop fut with
  | .ok h => .ok ⟨h⟩
  | .error e => .error e

/-- `AsyncioConnection.create_timer`: `AsyncioTimer(timeout, callback,
loop=cls._loop)` — passes the class-level loop handle, whatever it is. -/
def create_timer (s : ReactorState) (fut : TimerHandle) : Except PyExn AsyncioTimer :=
  AsyncioTimer.init s._loop fut

/-- `AsyncioTimer.end` (a property): unconditionally
`raise NotImplementedError(...)`. -/
def AsyncioTimer.end' (_t : AsyncioTimer) : Except PyExn Nat :=
  .error (.notImplementedError
    "\x7b\x7d is not compatible with TimerManager and does not implement .end()")

/-- `AsyncioTimer.finish`: unconditionally `raise NotImplementedError(...)`. -/
def AsyncioTimer.finish (_t : AsyncioTimer) : Except PyExn Unit :=
  .error (.notImplementedError
    "\x7b\x7d is not compatible with TimerManager and does not implement .finish()")

/-- `AsyncioTimer.cancel`: `self._handle.cancel()` — marks the future
cancelled and returns normally (no exception). -/
def AsyncioTimer.cancel (t : AsyncioTimer) : Except PyExn AsyncioTimer :=
  .ok ⟨{ t._handle with cancelled := true }⟩

/-- `AsyncioTimer.__lt__`: `self._handle < other._handle` delegates to the
handles (`hlt` is the handles' comparison); `other` is modelled by its
optional `_handle` attribute. When `other` has no `_handle`, the
`AttributeError` is caught and `raise NotImplemented` executes — and since
`NotImplemented` is a sentinel, not an exception class, that statement itself
raises `TypeError`. -/
def AsyncioTimer.lt (hlt : TimerHandle → TimerHandle → Bool) (self : AsyncioTimer)
    (other : Option TimerHandle) : Except PyExn Bool :=
  match other with
  | some h => .ok (hlt self._handle h)
  | none => .error (.typeError "exceptions must derive from BaseException")

/-! ## Helper lemmas -/

/-- Enqueueing a mapped sequence of chunks appends them behind the queue. -/
lemma foldl_push_chunk_eq_append (f : Nat → List Nat) (l : List Nat)
    (q : List (List Nat)) :
    l.foldl (fun acc i => _push_chunk acc (f i)) q = q ++ l.map f := by
  induction l generalizing q with
  | nil => simp
  | cons i l ih =>
    rw [List.foldl_cons, ih, _push_chunk]
    simp

/-- `push` appends its chunks behind the existing queue, in order. -/
lemma push_eq_append (b : Nat) (q : List (List Nat)) (data : List Nat) :
    push b q data = q ++ push b [] data := by
  unfold push
  by_cases h : data.length > b
  · simp only [if_pos h, foldl_push_chunk_eq_append, List.nil_append]
  · simp [if_neg h, _push_chunk]

/-- Concatenating the stride-`b` slices starting at `s` recovers
`(data.drop s).take (n * b)`. -/
lemma slices_flatten (data : List Nat) (b : Nat) :
    ∀ n s, ((List.range' s n b).map (fun i => (data.drop i).take b)).flatten
      = (data.drop s).take (n * b) := by
  intro n
  induction n with
  | zero => simp
  | succ n ih =>
    intro s
    rw [List.range'_succ, List.map_cons, List.flatten_cons, ih (s + b),
      Nat.succ_mul, Nat.add_comm (n * b) b, List.take_add, List.drop_drop]

/-- The chunk count `⌈L/b⌉` covers all of `data`: `L ≤ ⌈L/b⌉ * b`. -/
lemma length_le_chunks_mul (L b : Nat) (hb : 0 < b) :
    L ≤ ((L + b - 1) / b) * b := by
  have h1 := Nat.div_add_mod (L + b - 1) b
  have h2 := Nat.mod_lt (L + b - 1) hb
  rw [Nat.mul_comm]
  generalize b * ((L + b - 1) / b) = m at h1 ⊢
  omega

/-- The chunks `push` enqueues concatenate back to the pushed payload. -/
lemma push_flatten (b : Nat) (data : List Nat) (hb : 0 < b) :
    (push b [] data).flatten = data := by
  unfold push
  by_cases h : data.length > b
  · simp only [if_pos h, foldl_push_chunk_eq_append, List.nil_append]
    rw [slices_flatten, List.drop_zero,
      List.take_of_length_le (length_le_chunks_mul data.length b hb)]
  · simp [if_neg h, _push_chunk]

/-- Every chunk `push` enqueues has length at most `b`. -/
lemma push_chunk_length_le (b : Nat) (data : List Nat) :
    ∀ c ∈ push b [] data, c.length ≤ b := by
  intro c hc
  unfold push at hc
  by_cases h : data.length > b
  · rw [if_pos h, foldl_push_chunk_eq_append, List.nil_append] at hc
    obtain ⟨i, _, rfl⟩ := List.mem_map.mp hc
    rw [List.length_take]
    exact inf_le_left
  · rw [if_neg h] at hc
    simp only [_push_chunk, List.nil_append, List.mem_singleton] at hc
    subst hc
    omega

/-- A sequence of `push` calls leaves the queue holding each push's chunks,
in push order. -/
lemma foldl_push_eq_flatten (b : Nat) (pushes : List (List Nat)) :
    ∀ q, pushes.foldl (push b) q = q ++ (pushes.map (fun d => push b [] d)).flatten := by
  induction pushes with
  | nil => simp
  | cons d pushes ih =>
    intro q
    simp only [List.foldl_cons, ih, List.map_cons, List.flatten_cons]
    rw [push_eq_append, List.append_assoc]

/-- An error-free write loop sends exactly the queued bytes, in queue order. -/
lemma sentBytes_handle_write_ok (q : List (List Nat)) :
    sentBytes (handle_write (fun _ => none) q) = q.flatten := by
  induction q with
  | nil => rfl
  | cons c rest ih =>
    by_cases hc : c = []
    · subst hc
      simpa [handle_write] using ih
    · simp only [handle_write, if_pos hc, List.flatten_cons]
      simp only [sentBytes, List.filterMap_cons] at ih ⊢
      rw [List.flatten_cons, ih]

/-- Flattening the per-push chunk lists recovers the concatenated payloads. -/
lemma flatten_push_map (b : Nat) (pushes : List (List Nat)) (hb : 0 < b) :
    ((pushes.map (fun d => push b [] d)).flatten).flatten = pushes.flatten := by
  induction pushes with
  | nil => rfl
  | cons d pushes ih =>
    simp only [List.map_cons, List.flatten_cons, List.flatten_append,
      push_flatten b d hb, ih]

/-- The thread-starting step of `initialize_reactor` never touches `_loop`. -/
lemma thread_step_loop (s2 : ReactorState) (ft : Nat) :
    (if s2._loop_thread = none then { s2 with _loop_thread := some ft } else s2)._loop
      = s2._loop := by
  split <;> rfl

/-- After any `initialize_reactor` call the class-level loop handle is set. -/
lemma initialize_reactor_loop_isSome (pid fl ft : Nat) (s : ReactorState) :
    ∃ l, (initialize_reactor pid fl ft s)._loop = some l := by
  simp only [initialize_reactor]
  rw [thread_step_loop]
  by_cases hpid : s._pid ≠ pid
  · exact ⟨fl, by simp [hpid]⟩
  · by_cases hloop : s._loop = none
    · exact ⟨fl, by simp [hpid, hloop]⟩
    · obtain ⟨l, hl⟩ := Option.ne_none_iff_exists'.mp hloop
      exact ⟨l, by simp [hpid, hloop, hl]⟩

/-! ## Claim theorems -/

/-- C1: for every byte string `data` (and positive configured
`out_buffer_size`), `push` enqueues, behind the existing queue and in order, a
sequence of chunks whose concatenation equals `data`, each of length at most
`out_buffer_size`; and pushing `b"A"*5` then `b"B"*5` with
`out_buffer_size=4` enqueues exactly `[b"AAAA", b"A", b"BBBB", b"B"]`. -/
theorem push_chunking (b : Nat) (data : List Nat) (hb : 0 < b) :
    (push b [] data).flatten = data ∧
    (∀ c ∈ push b [] data, c.length ≤ b) ∧
    (∀ q, push b q data = q ++ push b [] data) ∧
    push 4 (push 4 [] (List.replicate 5 65)) (List.replicate 5 66) =
      [[65, 65, 65, 65], [65], [66, 66, 66, 66], [66]] := by
  refine ⟨push_flatten b data hb, push_chunk_length_le b data,
    fun q => push_eq_append b q data, by decide⟩

/-- C1 witness: the chunking theorem applied at `out_buffer_size = 4` and
`data = [1, 2, 3, 4, 5]`. -/
theorem push_chunking_witness :
    (push 4 [] [1, 2, 3, 4, 5]).flatten = [1, 2, 3, 4, 5] :=
  (push_chunking 4 [1, 2, 3, 4, 5] (by decide)).1

/-- C2: with an error-free socket, the write loop sends exactly the
concatenation, in push order, of every payload pushed on the connection,
for all payload sizes relative to `out_buffer_size`: the bytes of an earlier
push are all sent before any byte of a later push. -/
theorem write_order_preserved (b : Nat) (pushes : List (List Nat)) (hb : 0 < b) :
    sentBytes (handle_write (fun _ => none) (pushes.foldl (push b) [])) =
      pushes.flatten := by
  rw [foldl_push_eq_flatten, List.nil_append, sentBytes_handle_write_ok,
    flatten_push_map b pushes hb]

/-- C2 witness: pushes `[1,2,3,4,5]` then `[6]` with `out_buffer_size = 2`
are sent as `[1,2,3,4,5,6]`. -/
theorem write_order_preserved_witness :
    sentBytes (handle_write (fun _ => none) ([[1, 2, 3, 4, 5], [6]].foldl (push 2) [])) =
      [1, 2, 3, 4, 5, 6] :=
  write_order_preserved 2 [[1, 2, 3, 4, 5], [6]] (by decide)

/-- C5: whenever the write loop's send raises a socket error `e`, `defunct`
runs exactly once, with that error, as the loop's final action (no further
sends or dequeues follow), and the error is swallowed rather than raised out
of the loop task (the run is a normal value). -/
theorem write_error_defunct_once (send : List Nat → Option Nat)
    (q : List (List Nat)) (e : Nat)
    (hmem : WriteEvent.defunctW e ∈ handle_write send q) :
    (handle_write send q).getLast? = some (.defunctW e) ∧
    countDefunctW (handle_write send q) = 1 ∧
    ∃ c, c ∈ q ∧ c ≠ [] ∧ send c = some e := by
  induction q with
  | nil => simp [handle_write] at hmem
  | cons c rest ih =>
    by_cases hc : c = []
    · subst hc
      have hmem2 : WriteEvent.defunctW e ∈ handle_write send rest := hmem
      obtain ⟨h1, h2, c', hc1, hc2, hc3⟩ := ih hmem2
      exact ⟨h1, h2, c', List.mem_cons_of_mem _ hc1, hc2, hc3⟩
    · simp only [handle_write, if_pos hc] at hmem ⊢
      cases hsend : send c with
      | some e' =>
        rw [hsend] at hmem
        have hmem2 : WriteEvent.defunctW e ∈ [WriteEvent.defunctW e'] := hmem
        rw [List.mem_singleton] at hmem2
        cases hmem2
        exact ⟨rfl, rfl, c, List.mem_cons_self c rest, hc, hsend⟩
      | none =>
        rw [hsend] at hmem
        have hmem2 : WriteEvent.defunctW e ∈
            WriteEvent.sent c :: handle_write send rest := hmem
        rcases List.mem_cons.mp hmem2 with h | h
        · cases h
        · obtain ⟨h1, h2, c', hc1, hc2, hc3⟩ := ih h
          refine ⟨?_, ?_, c', List.mem_cons_of_mem _ hc1, hc2, hc3⟩
          · show (WriteEvent.sent c :: handle_write send rest).getLast? =
              some (.defunctW e)
            cases hrest : handle_write send rest with
            | nil => rw [hrest] at h; cases h
            | cons x l => rw [List.getLast?_cons_cons, ← hrest, h1]
          · show countDefunctW (WriteEvent.sent c :: handle_write send rest) = 1
            simpa [countDefunctW, List.countP_cons] using h2

/-- C5 witness: with a send that fails on chunk `[1]` with error `7` and the
queue `[[2], [1], [3]]`, the run ends in exactly one `defunct 7` after sending
`[2]`, and `[3]` is never dequeued. -/
theorem write_error_defunct_once_witness :
    (handle_write (fun c => if c = [1] then some 7 else none)
        [[2], [1], [3]]).getLast? = some (.defunctW 7) ∧
    countDefunctW (handle_write (fun c => if c = [1] then some 7 else none)
        [[2], [1], [3]]) = 1 ∧
    ∃ c, c ∈ [[2], [1], [3]] ∧ c ≠ [] ∧
      (fun c => if c = [1] then some 7 else none) c = some 7 :=
  write_error_defunct_once (fun c => if c = [1] then some 7 else none)
    [[2], [1], [3]] 7 (by decide)

/-- C3 counterexample: recorded `_pid = 1`, observed pid `2` (a fork), an
existing loop/thread pair `(5, 6)`, fresh loop `10` and fresh thread `11`
available. `initialize_reactor` installs the fresh loop but keeps the stale
thread handle `6` (it is non-`None`, hence truthy) and never updates `_pid`
— no new loop/thread *pair* is created. -/
theorem initialize_reactor_fork_counterexample :
    initialize_reactor 2 10 11 ⟨1, some 5, some 6⟩ = ⟨1, some 10, some 6⟩ ∧
    (initialize_reactor 2 10 11 ⟨1, some 5, some 6⟩)._loop_thread ≠ some 11 ∧
    (initialize_reactor 2 10 11 ⟨1, some 5, some 6⟩)._pid = 1 := by
  decide

/-- C3 (amended): two connections created in the same process share one loop
and one thread — with matching pid and both handles recorded,
`initialize_reactor` is a no-op; after a fork (observed pid differs from the
recorded `_pid`) it resets and re-obtains the loop handle, but when a thread
handle was already recorded it starts no new thread and keeps the recorded
pid, so the old thread handle is reused rather than a new loop/thread pair
being created. -/
theorem initialize_reactor_amended (s : ReactorState) (pid fl ft t : Nat) :
    (s._pid = pid → (∃ l, s._loop = some l) → (∃ th, s._loop_thread = some th) →
      initialize_reactor pid fl ft s = s) ∧
    (s._pid ≠ pid → s._loop_thread = some t →
      initialize_reactor pid fl ft s = { s with _loop := some fl }) := by
  constructor
  · rintro hpid ⟨l, hl⟩ ⟨th, hth⟩
    simp [initialize_reactor, hpid, hl, hth]
  · intro hpid hth
    simp [initialize_reactor, hpid, hth]

/-- C3 witness: the amended theorem applied to a same-process call on state
`⟨1, some 5, some 6⟩` and to a post-fork call (observed pid `2`) on the same
state. -/
theorem initialize_reactor_amended_witness :
    initialize_reactor 1 10 11 ⟨1, some 5, some 6⟩ = ⟨1, some 5, some 6⟩ ∧
    initialize_reactor 2 10 11 ⟨1, some 5, some 6⟩ = ⟨1, some 10, some 6⟩ :=
  ⟨(initialize_reactor_amended ⟨1, some 5, some 6⟩ 1 10 11 6).1 rfl ⟨5, rfl⟩ ⟨6, rfl⟩,
    (initialize_reactor_amended ⟨1, some 5, some 6⟩ 2 10 11 6).2 (by decide) rfl⟩

/-- C4: `close` on an open connection sets `is_closed`, cancels each of the
write and read task handles exactly once, and sets the connected event; a
second `close` is a no-op (any `close` of an already-closed connection
returns immediately, cancelling nothing), and `close` is a total function —
no error is raised. The check-and-set runs under `self.lock`, so concurrent
calls serialize into this sequential composition. -/
theorem close_idempotent (s : ConnState) (h : s.is_closed = false) :
    (close s).is_closed = true ∧
    (close s).write_cancels = s.write_cancels + 1 ∧
    (close s).read_cancels = s.read_cancels + 1 ∧
    (close s).connected_event = true ∧
    close (close s) = close s ∧
    (∀ t : ConnState, t.is_closed = true → close t = t) := by
  refine ⟨?_, ?_, ?_, ?_, ?_, fun t ht => by simp [close, ht]⟩ <;>
    simp [close, h]

/-- C4 witness: `close` twice from the freshly-constructed state. -/
theorem close_idempotent_witness :
    (close ⟨false, 0, 0, false⟩).is_closed = true ∧
    close (close ⟨false, 0, 0, false⟩) = close ⟨false, 0, 0, false⟩ :=
  ⟨(close_idempotent ⟨false, 0, 0, false⟩ rfl).1,
    (close_idempotent ⟨false, 0, 0, false⟩ rfl).2.2.2.2.1⟩

/-- C6: a zero-byte receive makes the read loop call `close()` exactly once
and return — the rest of the trace is never consumed (no further receive
attempts), `defunct` is not invoked, and the input buffer is left as it was;
moreover no run of the read loop ever calls `close()` more than once. -/
theorem read_zero_byte_closes (iobuf : List Nat) (rest : List RecvResult) :
    handle_read iobuf (.data [] :: rest) = ([.closed], iobuf) ∧
    (∀ (buf2 : List Nat) (trace : List RecvResult),
      ((handle_read buf2 trace).1.count .closed) ≤ 1) := by
  constructor
  · simp [handle_read]
  · intro buf2 trace
    induction trace generalizing buf2 with
    | nil => simp [handle_read]
    | cons r trace ih =>
      cases r with
      | data buf =>
        simp only [handle_read]
        split
        · simpa [List.count_cons] using ih (buf2 ++ buf)
        · simp
      | wantWrite => simpa [handle_read, List.count_cons] using ih buf2
      | wantRead => simpa [handle_read, List.count_cons] using ih buf2
      | sockErr e => simp [handle_read, List.count_cons]

/-- C7: a TLS want-read or want-write condition during receive does not
terminate the read loop and calls neither `defunct` nor `close`: the loop
emits exactly one bare `yield` (one scheduling turn) and then retries the
receive with the input buffer unchanged. -/
theorem read_ssl_want_yields_and_retries (iobuf : List Nat) (rest : List RecvResult) :
    handle_read iobuf (.wantRead :: rest) =
      (ReadEvent.yielded :: (handle_read iobuf rest).1, (handle_read iobuf rest).2) ∧
    handle_read iobuf (.wantWrite :: rest) =
      (ReadEvent.yielded :: (handle_read iobuf rest).1, (handle_read iobuf rest).2) :=
  ⟨rfl, rfl⟩

/-- C8: on every timer handle, the `end` property and `finish()` raise
`NotImplementedError` rather than succeed, while `cancel()` returns normally
without raising. -/
theorem timer_end_finish_unsupported (t : AsyncioTimer) :
    (∃ m, t.end' = .error (.notImplementedError m)) ∧
    (∃ m, t.finish = .error (.notImplementedError m)) ∧
    (∃ t2, t.cancel = .ok t2) :=
  ⟨⟨_, rfl⟩, ⟨_, rfl⟩, ⟨_, rfl⟩⟩

/-- C9: if `create_timer` runs while the class-level `_loop` is still `None`
(i.e. `initialize_reactor` has never run), constructing the timer raises (the
scheduling call dereferences `None`) instead of scheduling the callback; and
after any `initialize_reactor` call the loop handle is non-`None` and timer
construction succeeds, so the error branch is unreachable under that
precondition. -/
theorem create_timer_loop_none_raises (s s0 : ReactorState) (fut : TimerHandle)
    (pid fl ft : Nat) :
    (s._loop = none → ∃ e, create_timer s fut = .error e) ∧
    (∃ t, create_timer (initialize_reactor pid fl ft s0) fut = .ok t) := by
  constructor
  · intro h
    refine ⟨.attributeError "NoneType object has no attribute call_soon_threadsafe", ?_⟩
    simp [create_timer, AsyncioTimer.init, run_coroutine_threadsafe, h]
  · obtain ⟨l, hl⟩ := initialize_reactor_loop_isSome pid fl ft s0
    exact ⟨⟨fut⟩, by simp [create_timer, AsyncioTimer.init, run_coroutine_threadsafe, hl]⟩

/-- C9 witness: the theorem applied to the pristine class state
`⟨1, none, none⟩` (loop never initialized) and to the state produced by
`initialize_reactor` from it. -/
theorem create_timer_loop_none_raises_witness :
    (∃ e, create_timer ⟨1, none, none⟩ ⟨false⟩ = .error e) ∧
    (∃ t, create_timer (initialize_reactor 1 10 11 ⟨1, none, none⟩) ⟨false⟩ = .ok t) :=
  ⟨(create_timer_loop_none_raises ⟨1, none, none⟩ ⟨1, none, none⟩ ⟨false⟩ 1 10 11).1 rfl,
    (create_timer_loop_none_raises ⟨1, none, none⟩ ⟨1, none, none⟩ ⟨false⟩ 1 10 11).2⟩

/-- C10: comparing a timer with an object that has no `_handle` attribute
raises `TypeError` (the handler executes `raise NotImplemented`, and
`NotImplemented` is not an exception class) rather than returning the
`NotImplemented` sentinel; with another timer's handle present, the
comparison delegates to the underlying handles' comparison. -/
theorem timer_lt_raises_typeerror (hlt : TimerHandle → TimerHandle → Bool)
    (self : AsyncioTimer) (h : TimerHandle) :
    AsyncioTimer.lt hlt self (some h) = .ok (hlt self._handle h) ∧
    AsyncioTimer.lt hlt self none =
      .error (.typeError "exceptions must derive from BaseException") :=
  ⟨rfl, rfl⟩

end AsyncioReactor
